import Mathlib

/-!
Verification of the message-persistence core of the Real-Time-Chat-Platform
repository: shard routing (`internal/database`), the chat repository
(idempotent create, history pagination, cursor codec, filter validation)
and the chat service orchestration (`internal/chat`).

Go machine integers are modelled as `Int`/`Nat` (the values in play — shard
counts, limits, 32-bit hashes reduced `% 2^32`, nanosecond timestamps —
never overflow 64-bit in the modelled paths).  Timestamps (`time.Time`)
are modelled by their `UnixNano` value as an `Int`.  Database tables are
modelled as in-memory lists per shard; `QueryRow` over an equality
predicate becomes `List.find?`, `ORDER BY created_at` becomes an
insertion sort on the creation timestamp (SQL leaves the order of equal
keys unspecified; any sort is a faithful refinement), and the
store-generated id and `NOW()` timestamp of an `INSERT` are passed in as
explicit parameters.  Fallible operations return `Except ChatError`.
-/

namespace RTChat

/-! ## Shard router — `internal/database/postgres.go` -/

/-- FNV-1a 32-bit hash over a byte sequence, as computed by Go's
`fnv.New32a` (`hash/fnv`): offset basis 2166136261, prime 16777619,
arithmetic modulo `2^32`. -/
def fnv32a (bytes : List Nat) : Nat :=
  bytes.foldl (fun h b => ((h ^^^ b) * 16777619) % 4294967296) 2166136261

/-- UTF-8 encoding of one character (Go's `[]byte(string)` conversion). -/
def charUtf8 (c : Char) : List Nat :=
  let n := c.toNat
  if n < 128 then [n]
  else if n < 2048 then [192 + n / 64, 128 + n % 64]
  else if n < 65536 then [224 + n / 4096, 128 + (n / 64) % 64, 128 + n % 64]
  else [240 + n / 262144, 128 + (n / 4096) % 64, 128 + (n / 64) % 64, 128 + n % 64]

/-- UTF-8 bytes of a string (Go's `[]byte(key)`). -/
def utf8Bytes (s : String) : List Nat :=
  (s.data.map charUtf8).flatten

/-- A chat channel row (`internal/chat/models.go`, `channels` table). -/
structure Channel where
  id : String
  name : String
  chanType : String
  createdBy : String
  createdAt : Int
  updatedAt : Int
deriving DecidableEq, Repr

/-- A message row (`internal/chat/models.go`, `messages` table).
`idempotencyKey` is the nullable `idempotency_key` column (`*string`). -/
structure Message where
  id : String
  channelID : String
  userID : String
  content : String
  messageType : String
  createdAt : Int
  updatedAt : Int
  idempotencyKey : Option String
deriving DecidableEq, Repr

/-- One shard's relational backend: the tables the chat repository reads
and writes.  `members` models the `channel_members` table as a list of
(channel id, user id) pairs. -/
structure Shard where
  messages : List Message
  channels : List Channel
  members : List (String × String)
deriving DecidableEq, Repr

/-- The sharded store (`database.PostgresDB`): a fixed shard count and a
pool per shard index.  `pools` is total on `Nat`; only indices below
`shards` are ever produced by the router when `shards ≥ 1`. -/
structure PostgresDB where
  shards : Nat
  pools : Nat → Shard

/-- `PostgresDB.GetShard`: fast path when there is a single shard,
otherwise FNV-1a of the key's UTF-8 bytes modulo the shard count
(`int(h.Sum32()) % db.shards` — `Sum32` is a `uint32`, so on a 64-bit
platform the `int` value is non-negative and Go's `%` agrees with
`Nat.mod`).  We return the shard index; the Go code returns
`db.pools[shardIndex]`. -/
def GetShard (db : PostgresDB) (key : String) : Nat :=
  if db.shards = 1 then 0
  else fnv32a (utf8Bytes key) % db.shards

/-- `PostgresDB.GetShardByChannelID`. -/
def GetShardByChannelID (db : PostgresDB) (channelID : String) : Nat :=
  GetShard db channelID

/-! ## Request/response shapes — `internal/chat/models.go` -/

/-- `chat.SendMessageRequest`. -/
structure SendMessageRequest where
  channelID : String
  userID : String
  content : String
  idempotencyKey : String
  messageType : String
deriving DecidableEq, Repr

/-- `chat.HistoryRequest`.  `since` is the optional `*time.Time` filter,
modelled by its UnixNano value. -/
structure HistoryRequest where
  channelID : String
  userID : String
  cursor : String
  limit : Int
  since : Option Int
  sinceID : String
deriving DecidableEq, Repr

/-- `chat.MessagePage`. -/
structure MessagePage where
  messages : List Message
  nextCursor : Option String
  hasMore : Bool
  total : Nat
deriving DecidableEq, Repr

/-- Error taxonomy of the modelled operations.  The Go code returns
wrapped `error` values; each constructor stands for one distinguishable
failure message produced by the repository/service layer. -/
inductive ChatError where
  | channelNotFound
  | notMember
  | invalidCursor
  | sinceMessageNotFound
  | messageNotFound
deriving DecidableEq, Repr

/-! ## Cursor codec — `encodeCursor` / `decodeCursor`

The Go code renders the timestamp's `UnixNano` with
`strconv.FormatInt(·, 10)`, base64url-encodes it with
`base64.URLEncoding` (RFC 4648 URL alphabet, `=` padding), and decodes
with `base64.URLEncoding.DecodeString` followed by
`strconv.ParseInt(·, 10, 64)`. -/

/-- The RFC 4648 URL-safe base64 alphabet used by Go's
`base64.URLEncoding`. -/
def b64Alphabet : List Char :=
  "ABCDEFGHIJKLMNOPQRSTUVWXYZabcdefghijklmnopqrstuvwxyz0123456789-_".data

/-- Character for a sextet value. -/
def b64Char (n : Nat) : Char := b64Alphabet.getD n 'A'

/-- Sextet value of an alphabet character; `none` for characters outside
the alphabet (including the padding character). -/
def b64Index (c : Char) : Option Nat := b64Alphabet.findIdx? (· = c)

/-- Base64url encoding of a byte list, in 3-byte groups with `=`
padding, as Go's `EncodeToString`.  Go combines bits with shifts and
masks; we write the same sextets with `/`, `%`, `*`, `+`. -/
def encodeB64 : List Nat → List Char
  | [] => []
  | [a] => [b64Char (a / 4), b64Char ((a % 4) * 16), '=', '=']
  | [a, b] => [b64Char (a / 4), b64Char ((a % 4) * 16 + b / 16), b64Char ((b % 16) * 4), '=']
  | a :: b :: c :: rest =>
      b64Char (a / 4) :: b64Char ((a % 4) * 16 + b / 16) ::
      b64Char ((b % 16) * 4 + c / 64) :: b64Char (c % 64) :: encodeB64 rest

/-- Base64url decoding, as Go's `DecodeString`: the input must be a
sequence of 4-character groups, with padding allowed only in the final
group; anything else is rejected. -/
def decodeB64 : List Char → Option (List Nat)
  | [] => some []
  | c0 :: c1 :: c2 :: c3 :: rest =>
      if c2 = '=' then
        if c3 = '=' ∧ rest = [] then
          (b64Index c0).bind fun s0 =>
          (b64Index c1).bind fun s1 =>
          some [s0 * 4 + s1 / 16]
        else none
      else if c3 = '=' then
        if rest = [] then
          (b64Index c0).bind fun s0 =>
          (b64Index c1).bind fun s1 =>
          (b64Index c2).bind fun s2 =>
          some [s0 * 4 + s1 / 16, (s1 % 16) * 16 + s2 / 4]
        else none
      else
        (b64Index c0).bind fun s0 =>
        (b64Index c1).bind fun s1 =>
        (b64Index c2).bind fun s2 =>
        (b64Index c3).bind fun s3 =>
        (decodeB64 rest).bind fun tail =>
        some ((s0 * 4 + s1 / 16) :: ((s1 % 16) * 16 + s2 / 4) :: ((s2 % 4) * 64 + s3) :: tail)
  | _ => none

/-- ASCII bytes of the decimal rendering of a natural number
(`strconv.FormatInt` magnitude part; `0` renders as `"0"`). -/
def natDecimalBytes (n : Nat) : List Nat :=
  if n = 0 then [48]
  else ((Nat.digits 10 n).reverse.map (fun d => 48 + d))

/-- ASCII bytes of `strconv.FormatInt(t, 10)`: a leading `-` (byte 45)
for negative values, then the decimal magnitude. -/
def formatIntBytes (t : Int) : List Nat :=
  if t < 0 then 45 :: natDecimalBytes t.natAbs
  else natDecimalBytes t.toNat

/-- Decimal digit value of an ASCII byte. -/
def digitVal (b : Nat) : Option Nat :=
  if 48 ≤ b ∧ b ≤ 57 then some (b - 48) else none

/-- Accumulating decimal parse over ASCII digit bytes
(`strconv.ParseUint`'s digit loop). -/
def parseDigits : List Nat → Nat → Option Nat
  | [], acc => some acc
  | b :: rest, acc =>
      match digitVal b with
      | some d => parseDigits rest (acc * 10 + d)
      | none => none

/-- `strconv.ParseInt(s, 10, 64)` on ASCII bytes: optional sign, at
least one digit, and the int64 range check.  Go checks the range while
accumulating; accumulating first and checking once accepts and rejects
exactly the same strings. -/
def parseInt64 (bs : List Nat) : Option Int :=
  match bs with
  | [] => none
  | b :: rest =>
      if b = 45 then
        if rest = [] then none
        else (parseDigits rest 0).bind fun n =>
          if n ≤ 9223372036854775808 then some (-(n : Int)) else none
      else if b = 43 then
        if rest = [] then none
        else (parseDigits rest 0).bind fun n =>
          if n ≤ 9223372036854775807 then some ((n : Int)) else none
      else
        (parseDigits bs 0).bind fun n =>
          if n ≤ 9223372036854775807 then some ((n : Int)) else none

/-- `Repository.encodeCursor`: base64url of the decimal string of the
timestamp's UnixNano value. -/
def encodeCursor (t : Int) : String :=
  ⟨encodeB64 (formatIntBytes t)⟩

/-- `Repository.decodeCursor`: base64url decode, then parse the decimal
int64; any failure is the wrapped "invalid cursor" error.  The Go code
returns `time.Unix(0, timestamp)`, i.e. exactly the parsed UnixNano
instant. -/
def decodeCursor (cursor : String) : Except ChatError Int :=
  match decodeB64 cursor.data with
  | none => .error .invalidCursor
  | some bytes =>
      match parseInt64 bytes with
      | none => .error .invalidCursor
      | some t => .ok t

/-! ## Chat repository — `internal/chat/repository.go` -/

/-- `Repository.getMessageByIdempotencyKey`: `QueryRow` of
`SELECT ... FROM messages WHERE idempotency_key = $1` on the given pool.
The query carries no channel condition. -/
def getMessageByIdempotencyKey (pool : Shard) (idempotencyKey : String) : Option Message :=
  pool.messages.find? (fun m => decide (m.idempotencyKey = some idempotencyKey))

/-- `Repository.CreateMessage`: resolve the shard from the request's
channel id, default the message type to `"text"`, return the existing
message when the idempotency key is supplied and already present on the
shard, otherwise insert a new row.  The store-generated id and the
shard's `NOW()` timestamp are explicit parameters `newID` / `now`. -/
def CreateMessage (db : PostgresDB) (req : SendMessageRequest)
    (newID : String) (now : Int) : Message × PostgresDB :=
  let idx := GetShardByChannelID db req.channelID
  let pool := db.pools idx
  let messageType := if req.messageType = "" then "text" else req.messageType
  let existing :=
    if req.idempotencyKey = "" then none
    else getMessageByIdempotencyKey pool req.idempotencyKey
  match existing with
  | some m => (m, db)
  | none =>
      let key : Option String :=
        if req.idempotencyKey = "" then none else some req.idempotencyKey
      let m : Message :=
        { id := newID, channelID := req.channelID, userID := req.userID,
          content := req.content, messageType := messageType,
          createdAt := now, updatedAt := now, idempotencyKey := key }
      (m, { db with pools := fun i =>
              if i = idx then { pool with messages := pool.messages ++ [m] }
              else db.pools i })

/-- The limit clamp at the top of `Repository.GetMessageHistory`:
`if limit <= 0 || limit > 100 { limit = 50 }`. -/
def effectiveLimit (limit : Int) : Int :=
  if limit ≤ 0 ∨ 100 < limit then 50 else limit

/-- `Repository.GetMessage`: point read by the composite
`(id, channel_id)` on the shard resolved from the channel id. -/
def GetMessage (db : PostgresDB) (messageID channelID : String) : Except ChatError Message :=
  let pool := db.pools (GetShardByChannelID db channelID)
  match pool.messages.find? (fun m => decide (m.id = messageID ∧ m.channelID = channelID)) with
  | some m => .ok m
  | none => .error .messageNotFound

/-- `Repository.IsChannelMember`: the `EXISTS` membership query on the
shard resolved from the channel id. -/
def IsChannelMember (db : PostgresDB) (channelID userID : String) : Bool :=
  (db.pools (GetShardByChannelID db channelID)).members.contains (channelID, userID)

/-- `Repository.GetChannel`: channel lookup by id on the shard resolved
from the channel id. -/
def GetChannel (db : PostgresDB) (channelID : String) : Except ChatError Channel :=
  let pool := db.pools (GetShardByChannelID db channelID)
  match pool.channels.find? (fun c => decide (c.id = channelID)) with
  | some c => .ok c
  | none => .error .channelNotFound

/-- `Repository.GetMessageHistory`.  The SQL query is modelled as:
filter the shard's `messages` rows by the accumulated `WHERE`
conditions, sort by `created_at` in the chosen direction, and apply
`LIMIT limit+1` (the over-fetch used to detect `hasMore`).  The
`sinceID` resolution, trimming, next-cursor issuance and the unfiltered
`COUNT(*)` total follow the Go code line by line. -/
def GetMessageHistory (db : PostgresDB) (req : HistoryRequest) : Except ChatError MessagePage :=
  let pool := db.pools (GetShardByChannelID db req.channelID)
  let limit := effectiveLimit req.limit
  match (if req.cursor = "" then Except.ok none else (decodeCursor req.cursor).map some) with
  | .error e => .error e
  | .ok cursorTime =>
  match (if req.sinceID = "" then Except.ok none
         else match pool.messages.find?
                (fun m => decide (m.id = req.sinceID ∧ m.channelID = req.channelID)) with
              | some m => Except.ok (some m.createdAt)
              | none => Except.error ChatError.sinceMessageNotFound) with
  | .error e => .error e
  | .ok sinceIDTime =>
      let rows := pool.messages.filter (fun m =>
        decide (m.channelID = req.channelID) &&
        (match cursorTime with
         | some ct => decide (m.createdAt < ct)
         | none => true) &&
        (match req.since with
         | some s => decide (s < m.createdAt)
         | none => true) &&
        (match sinceIDTime with
         | some s => decide (s < m.createdAt)
         | none => true))
      let ordered :=
        if req.since.isSome ∨ req.sinceID ≠ "" then
          rows.insertionSort (fun a b => a.createdAt ≤ b.createdAt)
        else
          rows.insertionSort (fun a b => b.createdAt ≤ a.createdAt)
      let natLimit := limit.toNat
      let fetched := ordered.take (natLimit + 1)
      let hasMore := natLimit < fetched.length
      let messages := if hasMore then fetched.take natLimit else fetched
      let nextCursor :=
        if hasMore ∧ messages ≠ [] ∧ req.since = none ∧ req.sinceID = "" then
          match messages.getLast? with
          | some m => some (encodeCursor m.createdAt)
          | none => none
        else none
      let total := (pool.messages.filter (fun m => decide (m.channelID = req.channelID))).length
      .ok { messages := messages, nextCursor := nextCursor,
            hasMore := hasMore, total := total }

/-- `Repository.ValidateMessageFilters`: channel existence, then
membership, then cursor well-formedness, then existence of the
`sinceID` reference (via the composite point read), returning the first
failure. -/
def ValidateMessageFilters (db : PostgresDB) (req : HistoryRequest) : Except ChatError Unit :=
  match GetChannel db req.channelID with
  | .error _ => .error .channelNotFound
  | .ok _ =>
      if IsChannelMember db req.channelID req.userID = false then .error .notMember
      else
        match (if req.cursor = "" then Except.ok 0 else decodeCursor req.cursor) with
        | .error _ => .error .invalidCursor
        | .ok _ =>
            if req.sinceID = "" then .ok ()
            else
              match GetMessage db req.sinceID req.channelID with
              | .error _ => .error .sinceMessageNotFound
              | .ok _ => .ok ()

/-! ## Chat service — `internal/chat/service.go` -/

/-- `Service.SendMessage`: membership gate, then the repository create.
The post-create Redis event publication is fire-and-forget and does not
affect the returned value or the store, so it is not modelled. -/
def SendMessage (db : PostgresDB) (req : SendMessageRequest)
    (newID : String) (now : Int) : Except ChatError (Message × PostgresDB) :=
  if IsChannelMember db req.channelID req.userID = false then .error .notMember
  else .ok (CreateMessage db req newID now)

/-- `Service.GetMessageHistory`: validate filters, then delegate to the
repository's pagination. -/
def ServiceGetMessageHistory (db : PostgresDB) (req : HistoryRequest) : Except ChatError MessagePage :=
  match ValidateMessageFilters db req with
  | .error e => .error e
  | .ok _ => GetMessageHistory db req

/-- The history-read orchestration as the spec's words prescribe it
(§4.5): channel existence first (not-found short-circuits), then caller
membership (permission-denied short-circuits), then filter
well-formedness (cursor decodes; the `sinceMessageID` reference exists
on the channel), delegating to the pagination engine only after every
check passes.  Stated from the spec for comparison with
`ServiceGetMessageHistory`. -/
def specOrderedHistory (db : PostgresDB) (req : HistoryRequest) : Except ChatError MessagePage :=
  if (GetChannel db req.channelID).isOk = false then .error .channelNotFound
  else if IsChannelMember db req.channelID req.userID = false then .error .notMember
  else if req.cursor ≠ "" ∧ (decodeCursor req.cursor).isOk = false then .error .invalidCursor
  else if req.sinceID ≠ "" ∧ (GetMessage db req.sinceID req.channelID).isOk = false then
    .error .sinceMessageNotFound
  else GetMessageHistory db req

/-! ## Derived notions used by the claim statements -/

/-- Number of rows on a message list carrying a given idempotency key. -/
def countKey (msgs : List Message) (key : String) : Nat :=
  msgs.countP (fun m => decide (m.idempotencyKey = some key))

/-- The rows of a channel, read off the shard its id resolves to (the
channel's messages all live on that shard, since every insert routes by
the channel id). -/
def channelMessages (db : PostgresDB) (channelID : String) : List Message :=
  (db.pools (GetShardByChannelID db channelID)).messages.filter
    (fun m => decide (m.channelID = channelID))

/-! ## Instances -/

instance {ε α : Type} [DecidableEq ε] [DecidableEq α] : DecidableEq (Except ε α) := fun x y =>
  match x, y with
  | .ok a, .ok b => if h : a = b then .isTrue (by rw [h]) else .isFalse (by simp [h])
  | .error a, .error b => if h : a = b then .isTrue (by rw [h]) else .isFalse (by simp [h])
  | .ok _, .error _ => .isFalse (by simp)
  | .error _, .ok _ => .isFalse (by simp)

instance : IsTotal Message (fun a b => a.createdAt ≤ b.createdAt) :=
  ⟨fun a b => Int.le_total a.createdAt b.createdAt⟩

instance : IsTrans Message (fun a b => a.createdAt ≤ b.createdAt) :=
  ⟨fun _ _ _ h1 h2 => le_trans h1 h2⟩

instance : IsTotal Message (fun a b => b.createdAt ≤ a.createdAt) :=
  ⟨fun a b => Int.le_total b.createdAt a.createdAt⟩

instance : IsTrans Message (fun a b => b.createdAt ≤ a.createdAt) :=
  ⟨fun _ _ _ h1 h2 => le_trans h2 h1⟩

/-! ## Concrete fixtures used by witnesses and counterexamples -/

/-- An empty shard. -/
def emptyShard : Shard := ⟨[], [], []⟩

/-- Three fixed messages on channel `"c"`, created at 10, 30 and 20. -/
def msgA : Message := ⟨"a", "c", "u", "x", "text", 10, 10, none⟩

def msgB : Message := ⟨"b", "c", "u", "x", "text", 30, 30, none⟩

def msgD : Message := ⟨"d", "c", "u", "x", "text", 20, 20, none⟩

/-- Channel `"c"`, whose member is user `"u"`. -/
def chanC : Channel := ⟨"c", "general", "public", "u", 0, 0⟩

/-- A shard holding channel `"c"`, its member `"u"` and the three
messages above; replicated on every pool index of `histDB`. -/
def histShard : Shard := ⟨[msgA, msgB, msgD], [chanC], [("c", "u")]⟩

def histDB : PostgresDB := ⟨3, fun _ => histShard⟩

/-- Plain pagination request on channel `"c"` (limit 0 falls back to the
default of 50). -/
def plainReq : HistoryRequest := ⟨"c", "u", "", 0, none, ""⟩

/-- Catch-up request: messages since timestamp 15. -/
def sinceReq : HistoryRequest := ⟨"c", "u", "", 5, some 15, ""⟩

/-- The page `plainReq` produces on `histDB`: newest first, no more
data. -/
def pagePlain : MessagePage := ⟨[msgB, msgD, msgA], none, false, 3⟩

/-- The page `sinceReq` produces on `histDB`: oldest first among the
messages after t=15. -/
def pageSince : MessagePage := ⟨[msgD, msgB], none, false, 3⟩

/-- `histDB` with no messages yet. -/
def emptyChanShard : Shard := ⟨[], [chanC], [("c", "u")]⟩

def emptyChanDB : PostgresDB := ⟨3, fun _ => emptyChanShard⟩

/-- A create request on channel `"c"` carrying idempotency key `"k1"`. -/
def createReq : SendMessageRequest := ⟨"c", "u", "hi", "k1", ""⟩

/-- A message on channel `"other"` carrying idempotency key `"k"`. -/
def crossMsg : Message := ⟨"m0", "other", "v", "x", "text", 3, 3, some "k"⟩

/-- A single-shard store holding `crossMsg`, channel `"c"` and its
member `"u"` — so the shard resolved from channel `"c"` also holds the
other channel's message. -/
def crossShard : Shard := ⟨[crossMsg], [chanC], [("c", "u")]⟩

def crossDB : PostgresDB := ⟨1, fun _ => crossShard⟩

/-- A create request on channel `"c"` reusing idempotency key `"k"`
with different content. -/
def crossReq : SendMessageRequest := ⟨"c", "u", "hello", "k", ""⟩

/-- A create request whose content is the empty string. -/
def emptyContentReq : SendMessageRequest := ⟨"c", "u", "", "k6", ""⟩

/-! ## Theorems -/

/-- `CreateMessage` when the idempotency key is supplied and already
present on the resolved shard: the existing message is returned and the
store is untouched. -/
theorem createMessage_of_found (db : PostgresDB) (req : SendMessageRequest)
    (newID : String) (now : Int) (m : Message)
    (hkey : req.idempotencyKey ≠ "")
    (hlook : getMessageByIdempotencyKey (db.pools (GetShardByChannelID db req.channelID))
        req.idempotencyKey = some m) :
    CreateMessage db req newID now = (m, db) := by
  simp only [CreateMessage]
  simp [hkey, hlook]

theorem createMessage_of_none (db : PostgresDB) (req : SendMessageRequest)
    (newID : String) (now : Int)
    (hkey : req.idempotencyKey ≠ "")
    (hlook : getMessageByIdempotencyKey (db.pools (GetShardByChannelID db req.channelID))
        req.idempotencyKey = none) :
    CreateMessage db req newID now =
      (⟨newID, req.channelID, req.userID, req.content,
        (if req.messageType = "" then "text" else req.messageType), now, now,
        some req.idempotencyKey⟩,
       { db with pools := fun i =>
           if i = GetShardByChannelID db req.channelID then
             { db.pools (GetShardByChannelID db req.channelID) with
               messages := (db.pools (GetShardByChannelID db req.channelID)).messages ++
                 [⟨newID, req.channelID, req.userID, req.content,
                   (if req.messageType = "" then "text" else req.messageType), now, now,
                   some req.idempotencyKey⟩] }
           else db.pools i }) := by
  simp only [CreateMessage]
  simp [hkey, hlook]


theorem find?_key_append_singleton (l : List Message) (m : Message) (key : String)
    (hm : m.idempotencyKey = some key) (hl : l.find? (fun x => decide (x.idempotencyKey = some key)) = none) :
    (l ++ [m]).find? (fun x => decide (x.idempotencyKey = some key)) = some m := by
  rw [List.find?_append, hl]
  simp [hm]

/-- C1: idempotent create. when a message with the supplied
idempotency key already exists on the shard resolved from the channel
id, `CreateMessage` returns that existing message unchanged and
persists nothing; consequently two sequential creates with identical
arguments (whatever fresh id and timestamp the store would have
assigned to the second) return the same `Message` value — same
identifier and timestamps — leave the store unchanged after the first
call, and the shard ends up holding exactly one row for the key.  The
`huniq` hypothesis is the store's uniqueness constraint on
`idempotency_key`. -/
theorem createMessage_idempotent (db : PostgresDB) (req : SendMessageRequest)
    (id1 id2 : String) (t1 t2 : Int)
    (hkey : req.idempotencyKey ≠ "")
    (huniq : countKey (db.pools (GetShardByChannelID db req.channelID)).messages
        req.idempotencyKey ≤ 1) :
    (∀ m, getMessageByIdempotencyKey (db.pools (GetShardByChannelID db req.channelID))
        req.idempotencyKey = some m →
        CreateMessage db req id1 t1 = (m, db)) ∧
    (CreateMessage (CreateMessage db req id1 t1).2 req id2 t2).1 =
      (CreateMessage db req id1 t1).1 ∧
    (CreateMessage (CreateMessage db req id1 t1).2 req id2 t2).2 =
      (CreateMessage db req id1 t1).2 ∧
    countKey ((CreateMessage db req id1 t1).2.pools
        (GetShardByChannelID db req.channelID)).messages req.idempotencyKey = 1 := by
  cases hlook : getMessageByIdempotencyKey (db.pools (GetShardByChannelID db req.channelID))
      req.idempotencyKey with
  | some m =>
      have h1 := createMessage_of_found db req id1 t1 m hkey hlook
      have h2 := createMessage_of_found db req id2 t2 m hkey hlook
      have hfind : (db.pools (GetShardByChannelID db req.channelID)).messages.find?
          (fun x => decide (x.idempotencyKey = some req.idempotencyKey)) = some m := hlook
      have hcnt : 0 < countKey (db.pools (GetShardByChannelID db req.channelID)).messages
          req.idempotencyKey := by
        have hmem := List.mem_of_find?_eq_some hfind
        have hp := List.find?_some hfind
        rw [countKey, List.countP_pos_iff]
        exact ⟨m, hmem, hp⟩
      refine ⟨fun m' hm' => ?_, ?_, ?_, ?_⟩
      · obtain rfl : m = m' := Option.some.inj hm'
        exact h1
      · rw [h1]
        show (CreateMessage db req id2 t2).1 = m
        rw [h2]
      · rw [h1]
        show (CreateMessage db req id2 t2).2 = db
        rw [h2]
      · rw [h1]
        show countKey (db.pools (GetShardByChannelID db req.channelID)).messages
          req.idempotencyKey = 1
        omega
  | none =>
      have h1 := createMessage_of_none db req id1 t1 hkey hlook
      have hfindnone : (db.pools (GetShardByChannelID db req.channelID)).messages.find?
          (fun x => decide (x.idempotencyKey = some req.idempotencyKey)) = none := hlook
      have hz : countKey (db.pools (GetShardByChannelID db req.channelID)).messages
          req.idempotencyKey = 0 := by
        rw [countKey, List.countP_eq_zero]
        intro a ha
        have := List.find?_eq_none.mp hfindnone a ha
        simpa using this
      have hpools : ((CreateMessage db req id1 t1).2.pools
          (GetShardByChannelID db req.channelID)).messages =
          (db.pools (GetShardByChannelID db req.channelID)).messages ++
            [⟨id1, req.channelID, req.userID, req.content,
              (if req.messageType = "" then "text" else req.messageType), t1, t1,
              some req.idempotencyKey⟩] := by
        rw [h1]
        simp
      have hshards : (CreateMessage db req id1 t1).2.shards = db.shards := by
        rw [h1]
      have hresolve : GetShardByChannelID (CreateMessage db req id1 t1).2 req.channelID =
          GetShardByChannelID db req.channelID := by
        unfold GetShardByChannelID GetShard
        rw [hshards]
      have hlook2 : getMessageByIdempotencyKey
          ((CreateMessage db req id1 t1).2.pools
            (GetShardByChannelID (CreateMessage db req id1 t1).2 req.channelID))
          req.idempotencyKey = some ⟨id1, req.channelID, req.userID, req.content,
              (if req.messageType = "" then "text" else req.messageType), t1, t1,
              some req.idempotencyKey⟩ := by
        rw [hresolve]
        unfold getMessageByIdempotencyKey
        rw [hpools]
        exact find?_key_append_singleton _ _ _ rfl hfindnone
      have h2 := createMessage_of_found (CreateMessage db req id1 t1).2 req id2 t2 _ hkey hlook2
      refine ⟨fun m' hm' => ?_, ?_, ?_, ?_⟩
      · simp at hm'
      · rw [h2]
        rw [h1]
      · rw [h2]
      · rw [hpools, countKey, List.countP_append]
        rw [countKey] at hz
        rw [hz]
        simp


theorem createMessage_idempotent_witness :
    createReq.idempotencyKey ≠ "" ∧
    countKey (emptyChanDB.pools (GetShardByChannelID emptyChanDB createReq.channelID)).messages
      createReq.idempotencyKey ≤ 1 ∧
    (CreateMessage (CreateMessage emptyChanDB createReq "m1" 5).2 createReq "m2" 9).1 =
      (CreateMessage emptyChanDB createReq "m1" 5).1 ∧
    countKey ((CreateMessage emptyChanDB createReq "m1" 5).2.pools
        (GetShardByChannelID emptyChanDB createReq.channelID)).messages
      createReq.idempotencyKey = 1 :=
  ⟨by decide, by decide,
   (createMessage_idempotent emptyChanDB createReq "m1" "m2" 5 9 (by decide) (by decide)).2.1,
   (createMessage_idempotent emptyChanDB createReq "m1" "m2" 5 9 (by decide) (by decide)).2.2.2⟩

/-- C10: the idempotency lookup matches on the key alone — the SQL
carries no channel condition — so whenever a message with the request's
key exists on the shard resolved from the request's channel id,
`CreateMessage` returns it as-is, even if that message belongs to a
different channel or has different content than the request (see the
witness, where both differ). -/
theorem idempotency_lookup_ignores_channel (db : PostgresDB) (req : SendMessageRequest)
    (newID : String) (now : Int) (m : Message)
    (hkey : req.idempotencyKey ≠ "")
    (hlook : getMessageByIdempotencyKey (db.pools (GetShardByChannelID db req.channelID))
        req.idempotencyKey = some m) :
    CreateMessage db req newID now = (m, db) := by
  have h := createMessage_of_found db req newID now m hkey hlook
  exact h

theorem idempotency_lookup_ignores_channel_witness :
    crossReq.idempotencyKey ≠ "" ∧
    getMessageByIdempotencyKey (crossDB.pools (GetShardByChannelID crossDB crossReq.channelID))
      crossReq.idempotencyKey = some crossMsg ∧
    CreateMessage crossDB crossReq "n1" 99 = (crossMsg, crossDB) ∧
    crossMsg.channelID ≠ crossReq.channelID ∧
    crossMsg.content ≠ crossReq.content :=
  ⟨by decide, by decide,
   idempotency_lookup_ignores_channel crossDB crossReq "n1" 99 crossMsg (by decide) (by decide),
   by decide, by decide⟩
/-- C2: shard resolution is a pure function of the routing key and
the fixed shard count: with a single shard it returns index 0 without
hashing, otherwise it returns FNV-1a-32 of the key's UTF-8 bytes modulo
the shard count; `GetShardByChannelID` is exactly `GetShard`, and the
produced index is always in range.  Determinism across calls is
immediate, `GetShard` being a function of `db.shards` and the key
alone. -/
theorem getShard_deterministic_fnv (db : PostgresDB) (key : String) :
    (db.shards = 1 → GetShard db key = 0) ∧
    (db.shards ≠ 1 → GetShard db key = fnv32a (utf8Bytes key) % db.shards) ∧
    GetShardByChannelID db key = GetShard db key ∧
    (1 ≤ db.shards → GetShard db key < db.shards) := by
  refine ⟨fun h => by simp [GetShard, h], fun h => by simp [GetShard, h], rfl, fun h => ?_⟩
  unfold GetShard
  split
  · omega
  · exact Nat.mod_lt _ (by omega)

theorem getShard_deterministic_fnv_witness :
    GetShard ⟨1, fun _ => emptyShard⟩ "k" = 0 ∧
    GetShard histDB "c" = fnv32a (utf8Bytes "c") % 3 ∧
    GetShard histDB "c" < 3 :=
  ⟨(getShard_deterministic_fnv ⟨1, fun _ => emptyShard⟩ "k").1 rfl,
   (getShard_deterministic_fnv histDB "c").2.1 (by decide),
   (getShard_deterministic_fnv histDB "c").2.2.2 (by decide)⟩

/-- C3: the effective limit of a history read is the requested limit
when it lies in [1, 100] and 50 otherwise; in particular 0, -5 and 1000
behave exactly as 50 (the whole history result is unchanged), while 1
and 100 are honored. -/
theorem history_limit_clamp (db : PostgresDB) (req : HistoryRequest) (l : Int) :
    (1 ≤ l → l ≤ 100 → effectiveLimit l = l) ∧
    (l ≤ 0 ∨ 100 < l → effectiveLimit l = 50) ∧
    effectiveLimit 0 = 50 ∧ effectiveLimit (-5) = 50 ∧ effectiveLimit 1000 = 50 ∧
    effectiveLimit 1 = 1 ∧ effectiveLimit 100 = 100 ∧
    GetMessageHistory db { req with limit := 0 } = GetMessageHistory db { req with limit := 50 } ∧
    GetMessageHistory db { req with limit := -5 } = GetMessageHistory db { req with limit := 50 } ∧
    GetMessageHistory db { req with limit := 1000 } = GetMessageHistory db { req with limit := 50 } := by
  refine ⟨fun h1 h2 => ?_, fun h => ?_, by decide, by decide, by decide, by decide, by decide,
          rfl, rfl, rfl⟩
  · unfold effectiveLimit
    rw [if_neg (by omega)]
  · unfold effectiveLimit
    rw [if_pos h]

theorem history_limit_clamp_witness :
    (1 ≤ (7 : Int) ∧ (7 : Int) ≤ 100 ∧ effectiveLimit 7 = 7) ∧
    ((-5 : Int) ≤ 0 ∧ effectiveLimit (-5) = 50) ∧
    GetMessageHistory histDB { plainReq with limit := 0 } =
      GetMessageHistory histDB { plainReq with limit := 50 } :=
  ⟨⟨by decide, by decide, (history_limit_clamp histDB plainReq 7).1 (by decide) (by decide)⟩,
   ⟨by decide, (history_limit_clamp histDB plainReq (-5)).2.1 (Or.inl (by decide))⟩,
   (history_limit_clamp histDB plainReq 0).2.2.2.2.2.2.2.1⟩


theorem b64Index_b64Char : ∀ n < 64, b64Index (b64Char n) = some n := by decide

theorem b64Char_ne_pad : ∀ n < 64, b64Char n ≠ '=' := by decide


theorem decodeB64_encodeB64 : ∀ bs : List Nat, (∀ b ∈ bs, b < 256) →
    decodeB64 (encodeB64 bs) = some bs
  | [], _ => rfl
  | [a], h => by
      have ha : a < 256 := h a (by simp)
      have h0 : a / 4 < 64 := by omega
      have h1 : (a % 4) * 16 < 64 := by omega
      show decodeB64 [b64Char (a / 4), b64Char ((a % 4) * 16), '=', '='] = some [a]
      simp only [decodeB64, and_self, if_true]
      rw [b64Index_b64Char _ h0, b64Index_b64Char _ h1]
      simp only [Option.bind]
      have e1 : a / 4 * 4 + (a % 4) * 16 / 16 = a := by omega
      rw [e1]
  | [a, b], h => by
      have ha : a < 256 := h a (by simp)
      have hb : b < 256 := h b (by simp)
      have h0 : a / 4 < 64 := by omega
      have h1 : (a % 4) * 16 + b / 16 < 64 := by omega
      have h2 : (b % 16) * 4 < 64 := by omega
      show decodeB64 [b64Char (a / 4), b64Char ((a % 4) * 16 + b / 16),
        b64Char ((b % 16) * 4), '='] = some [a, b]
      simp only [decodeB64, and_self, if_true]
      rw [if_neg (b64Char_ne_pad _ h2)]
      rw [b64Index_b64Char _ h0, b64Index_b64Char _ h1, b64Index_b64Char _ h2]
      simp only [Option.bind]
      have e1 : a / 4 * 4 + ((a % 4) * 16 + b / 16) / 16 = a := by omega
      have e2 : ((a % 4) * 16 + b / 16) % 16 * 16 + (b % 16) * 4 / 4 = b := by omega
      rw [e1, e2]
  | a :: b :: c :: rest, h => by
      have ha : a < 256 := h a (by simp)
      have hb : b < 256 := h b (by simp)
      have hc : c < 256 := h c (by simp)
      have h0 : a / 4 < 64 := by omega
      have h1 : (a % 4) * 16 + b / 16 < 64 := by omega
      have h2 : (b % 16) * 4 + c / 64 < 64 := by omega
      have h3 : c % 64 < 64 := by omega
      have ih := decodeB64_encodeB64 rest (fun x hx => h x (by simp [hx]))
      show decodeB64 (b64Char (a / 4) :: b64Char ((a % 4) * 16 + b / 16) ::
        b64Char ((b % 16) * 4 + c / 64) :: b64Char (c % 64) :: encodeB64 rest) =
        some (a :: b :: c :: rest)
      simp only [decodeB64, and_self, if_true]
      rw [if_neg (b64Char_ne_pad _ h2), if_neg (b64Char_ne_pad _ h3)]
      rw [b64Index_b64Char _ h0, b64Index_b64Char _ h1, b64Index_b64Char _ h2,
        b64Index_b64Char _ h3]
      simp only [Option.bind]
      rw [ih]
      have e1 : a / 4 * 4 + ((a % 4) * 16 + b / 16) / 16 = a := by omega
      have e2 : ((a % 4) * 16 + b / 16) % 16 * 16 + ((b % 16) * 4 + c / 64) / 4 = b := by omega
      have e3 : ((b % 16) * 4 + c / 64) % 4 * 64 + c % 64 = c := by omega
      rw [e1, e2, e3]


theorem natDecimalBytes_bounds (n : Nat) : ∀ b ∈ natDecimalBytes n, 48 ≤ b ∧ b ≤ 57 := by
  intro b hb
  unfold natDecimalBytes at hb
  split at hb
  · simp at hb
    omega
  · simp only [List.mem_map, List.mem_reverse] at hb
    obtain ⟨d, hd, rfl⟩ := hb
    have := Nat.digits_lt_base (by norm_num) hd
    omega

theorem natDecimalBytes_ne_nil (n : Nat) : natDecimalBytes n ≠ [] := by
  unfold natDecimalBytes
  split
  · simp
  · rename_i hn
    simp [Nat.digits_ne_nil_iff_ne_zero, hn]

theorem parseDigits_map (ds : List Nat) (hds : ∀ d ∈ ds, d < 10) (acc : Nat) :
    parseDigits (ds.map (fun d => 48 + d)) acc =
      some (acc * 10 ^ ds.length + Nat.ofDigits 10 ds.reverse) := by
  induction ds generalizing acc with
  | nil => simp [parseDigits]
  | cons d rest ih =>
      have hd : d < 10 := hds d (by simp)
      have hdv : digitVal (48 + d) = some d := by
        unfold digitVal
        rw [if_pos ⟨by omega, by omega⟩]
        congr 1
        omega
      simp only [List.map_cons, parseDigits, hdv]
      rw [ih (fun x hx => hds x (by simp [hx]))]
      congr 1
      rw [List.reverse_cons, Nat.ofDigits_append]
      simp only [List.length_reverse, List.length_cons, Nat.ofDigits_singleton]
      ring

theorem parseDigits_natDecimalBytes (n : Nat) :
    parseDigits (natDecimalBytes n) 0 = some n := by
  unfold natDecimalBytes
  split
  · rename_i hn
    subst hn
    rfl
  · rw [parseDigits_map _ (fun d hd => Nat.digits_lt_base (by norm_num) (List.mem_reverse.mp hd)) 0]
    simp [List.reverse_reverse, Nat.ofDigits_digits]

theorem formatIntBytes_bounds (t : Int) : ∀ b ∈ formatIntBytes t, b < 256 := by
  intro b hb
  unfold formatIntBytes at hb
  split at hb
  · rcases List.mem_cons.mp hb with h | h
    · omega
    · have := natDecimalBytes_bounds _ b h
      omega
  · have := natDecimalBytes_bounds _ b hb
    omega

theorem parseInt64_formatIntBytes (t : Int)
    (h1 : -(2 ^ 63) ≤ t) (h2 : t < 2 ^ 63) :
    parseInt64 (formatIntBytes t) = some t := by
  unfold formatIntBytes
  split
  · rename_i hneg
    simp only [parseInt64]
    rw [if_true, if_neg (natDecimalBytes_ne_nil _), parseDigits_natDecimalBytes]
    simp only [Option.bind]
    rw [if_pos (by omega)]
    congr 1
    omega
  · rename_i hpos
    cases hnd : natDecimalBytes t.toNat with
    | nil => exact absurd hnd (natDecimalBytes_ne_nil _)
    | cons r rs =>
        have hr : 48 ≤ r ∧ r ≤ 57 := natDecimalBytes_bounds _ r (hnd ▸ List.mem_cons_self r rs)
        simp only [hnd, parseInt64]
        rw [if_neg (by omega), if_neg (by omega)]
        rw [← hnd, parseDigits_natDecimalBytes]
        simp only [Option.bind]
        rw [if_pos (by omega)]
        congr 1
        omega

/-- C8: decoding the cursor produced by encoding a timestamp succeeds
and yields the same instant at nanosecond precision — `decodeCursor` is
a left inverse of `encodeCursor` on every int64-representable UnixNano
value (the domain of Go's `time.Time.UnixNano`). -/
theorem cursor_roundtrip (t : Int) (h1 : -(2 ^ 63) ≤ t) (h2 : t < 2 ^ 63) :
    decodeCursor (encodeCursor t) = .ok t := by
  unfold encodeCursor decodeCursor
  rw [show (String.mk (encodeB64 (formatIntBytes t))).data = encodeB64 (formatIntBytes t) from rfl]
  rw [decodeB64_encodeB64 _ (formatIntBytes_bounds t)]
  show (match parseInt64 (formatIntBytes t) with
        | none => Except.error ChatError.invalidCursor
        | some v => Except.ok v) = Except.ok t
  rw [parseInt64_formatIntBytes t h1 h2]

theorem cursor_roundtrip_witness :
    (-(2 ^ 63) ≤ (1700000000000000000 : Int) ∧ (1700000000000000000 : Int) < 2 ^ 63) ∧
    decodeCursor (encodeCursor 1700000000000000000) = .ok 1700000000000000000 :=
  ⟨⟨by decide, by decide⟩,
   cursor_roundtrip 1700000000000000000 (by decide) (by decide)⟩

/-- C5: when a history request carries a `sinceID` and no message with
that identifier exists on the resolved shard for that channel —
including when the message belongs to a different channel, so the
composite `(id, channel_id)` lookup misses — `GetMessageHistory` fails
with the not-found error instead of returning a page.  (`hcur` fixes
the request to the `sinceID` filter kind; a malformed cursor would
fail even earlier, with the invalid-cursor error.) -/
theorem history_sinceID_not_found (db : PostgresDB) (req : HistoryRequest)
    (hsid : req.sinceID ≠ "") (hcur : req.cursor = "")
    (habsent : ∀ m ∈ (db.pools (GetShardByChannelID db req.channelID)).messages,
        ¬(m.id = req.sinceID ∧ m.channelID = req.channelID)) :
    GetMessageHistory db req = .error .sinceMessageNotFound := by
  have hfind : (db.pools (GetShardByChannelID db req.channelID)).messages.find?
      (fun m => decide (m.id = req.sinceID) && decide (m.channelID = req.channelID)) = none := by
    rw [List.find?_eq_none]
    intro m hm
    simpa using habsent m hm
  simp only [GetMessageHistory]
  simp [hcur, hsid, hfind]

theorem history_sinceID_not_found_witness :
    ("zzz" : String) ≠ "" ∧
    GetMessageHistory histDB ⟨"c", "u", "", 2, none, "zzz"⟩ = .error .sinceMessageNotFound :=
  ⟨by decide,
   history_sinceID_not_found histDB ⟨"c", "u", "", 2, none, "zzz"⟩ (by decide) rfl (by decide)⟩

/-- C7: the `total` field of every successful history page is the
unfiltered per-channel row count on the channel's shard, so any two
successful reads of the same channel — whatever cursor, `since`,
`sinceID` filter or limit they use — report the same total. -/
theorem history_total_unfiltered (db : PostgresDB) (req req' : HistoryRequest)
    (page page' : MessagePage)
    (h : GetMessageHistory db req = .ok page)
    (h' : GetMessageHistory db req' = .ok page')
    (hch : req.channelID = req'.channelID) :
    page.total = (channelMessages db req.channelID).length ∧ page.total = page'.total := by
  have key : ∀ (r : HistoryRequest) (q : MessagePage), GetMessageHistory db r = .ok q →
      q.total = (channelMessages db r.channelID).length := by
    intro r q hq
    simp only [GetMessageHistory] at hq
    split at hq
    · simp at hq
    · split at hq
      · simp at hq
      · rw [Except.ok.injEq] at hq
        rw [← hq]
        rfl
  exact ⟨key req page h, by rw [key req page h, key req' page' h', hch]⟩

theorem history_total_unfiltered_witness :
    GetMessageHistory histDB plainReq = .ok pagePlain ∧
    GetMessageHistory histDB sinceReq = .ok pageSince ∧
    pagePlain.total = (channelMessages histDB plainReq.channelID).length ∧
    pagePlain.total = pageSince.total :=
  ⟨by decide, by decide,
   (history_total_unfiltered histDB plainReq sinceReq pagePlain pageSince
      (by decide) (by decide) rfl).1,
   (history_total_unfiltered histDB plainReq sinceReq pagePlain pageSince
      (by decide) (by decide) rfl).2⟩

/-- C6 counterexample: a create request with empty content from a
channel member is not rejected with an invalid-argument error before
store access — `SendMessage` succeeds and a row is persisted, refuting
the claim at this concrete input. -/
theorem sendMessage_empty_content_inserted :
    emptyContentReq.content = "" ∧
    (SendMessage emptyChanDB emptyContentReq "m1" 0).isOk = true ∧
    (match SendMessage emptyChanDB emptyContentReq "m1" 0 with
     | .ok r => ((r.2.pools (GetShardByChannelID emptyChanDB emptyContentReq.channelID)).messages.length)
     | .error _ => 0) = 1 := by decide

/-- C6 (amended): the create path performs no empty-argument
validation at all.  Its only pre-insert gate is the channel-membership
read (itself a store access): whenever the requester is a member,
`SendMessage` delegates straight to `CreateMessage`, even when the
channel id, user id or content is the empty string.  (Empty-field
rejection exists only in the HTTP binding layer, outside this core.) -/
theorem sendMessage_no_argument_validation (db : PostgresDB) (req : SendMessageRequest)
    (newID : String) (now : Int)
    (hmem : IsChannelMember db req.channelID req.userID = true) :
    SendMessage db req newID now = .ok (CreateMessage db req newID now) := by
  simp [SendMessage, hmem]

theorem sendMessage_no_argument_validation_witness :
    IsChannelMember emptyChanDB emptyContentReq.channelID emptyContentReq.userID = true ∧
    SendMessage emptyChanDB emptyContentReq "m1" 0 =
      .ok (CreateMessage emptyChanDB emptyContentReq "m1" 0) :=
  ⟨by decide,
   sendMessage_no_argument_validation emptyChanDB emptyContentReq "m1" 0 (by decide)⟩


theorem sorted_take {r : Message → Message → Prop} (l : List Message) (n : Nat)
    (h : List.Sorted r l) : List.Sorted r (l.take n) :=
  List.Pairwise.sublist (List.take_sublist n l) h

/-- C4: the ordering of a returned history page depends only on the
filter kind — plain and cursor-based pagination produce pages sorted
newest first (descending creation time), while any request carrying a
`since` timestamp or a `sinceID` produces pages sorted oldest first
(ascending creation time). -/
theorem history_ordering_policy (db : PostgresDB) (req : HistoryRequest) (page : MessagePage)
    (h : GetMessageHistory db req = .ok page) :
    (req.since = none ∧ req.sinceID = "" →
       page.messages.Sorted (fun a b : Message => b.createdAt ≤ a.createdAt)) ∧
    (req.since ≠ none ∨ req.sinceID ≠ "" →
       page.messages.Sorted (fun a b : Message => a.createdAt ≤ b.createdAt)) := by
  simp only [GetMessageHistory] at h
  split at h
  · simp at h
  · split at h
    · simp at h
    · rw [Except.ok.injEq] at h
      subst h
      constructor
      · rintro ⟨hs, hsid⟩
        simp only [hs, hsid]
        simp only [Option.isSome_none, Bool.false_eq_true, ne_eq, not_true_eq_false, or_self,
          if_false, ite_false]
        split
        · exact sorted_take _ _ (sorted_take _ _ (List.sorted_insertionSort _ _))
        · exact sorted_take _ _ (List.sorted_insertionSort _ _)
      · intro hor
        have hcond : (req.since.isSome = true ∨ req.sinceID ≠ "") := by
          rcases hor with h1 | h2
          · left
            cases hsince : req.since with
            | none => exact absurd hsince h1
            | some s => rfl
          · right
            exact h2
        rw [if_pos hcond]
        split
        · exact sorted_take _ _ (sorted_take _ _ (List.sorted_insertionSort _ _))
        · exact sorted_take _ _ (List.sorted_insertionSort _ _)

theorem history_ordering_policy_witness :
    GetMessageHistory histDB plainReq = .ok pagePlain ∧
    List.Sorted (fun a b : Message => b.createdAt ≤ a.createdAt) pagePlain.messages ∧
    GetMessageHistory histDB sinceReq = .ok pageSince ∧
    List.Sorted (fun a b : Message => a.createdAt ≤ b.createdAt) pageSince.messages :=
  ⟨by decide,
   (history_ordering_policy histDB plainReq pagePlain (by decide)).1 ⟨rfl, rfl⟩,
   by decide,
   (history_ordering_policy histDB sinceReq pageSince (by decide)).2 (Or.inl (by decide))⟩

/-- C9: the service-level history read equals the spec-ordered
orchestration `specOrderedHistory`: channel existence is checked first
(not-found short-circuits), then membership (permission-denied
short-circuits), then cursor well-formedness, then existence of the
`sinceID` reference; the first failure is returned as-is — never
downgraded to a partial or empty success — and the pagination engine
runs only when every check passes. -/
theorem history_validation_order (db : PostgresDB) (req : HistoryRequest) :
    ServiceGetMessageHistory db req = specOrderedHistory db req := by
  unfold ServiceGetMessageHistory specOrderedHistory ValidateMessageFilters
  cases hc : GetChannel db req.channelID with
  | error e => simp [hc, Except.isOk, Except.toBool]
  | ok c =>
    by_cases hm : IsChannelMember db req.channelID req.userID = false
    · simp [hc, hm, Except.isOk, Except.toBool]
    · by_cases hcur : req.cursor = ""
      · by_cases hsid : req.sinceID = ""
        · simp [hc, hm, hcur, hsid, Except.isOk, Except.toBool]
        · cases hgm : GetMessage db req.sinceID req.channelID with
          | error e => simp [hc, hm, hcur, hsid, hgm, Except.isOk, Except.toBool]
          | ok v => simp [hc, hm, hcur, hsid, hgm, Except.isOk, Except.toBool]
      · cases hdc : decodeCursor req.cursor with
        | error e => simp [hc, hm, hcur, hdc, Except.isOk, Except.toBool]
        | ok v =>
          by_cases hsid : req.sinceID = ""
          · simp [hc, hm, hcur, hdc, hsid, Except.isOk, Except.toBool]
          · cases hgm : GetMessage db req.sinceID req.channelID with
            | error e => simp [hc, hm, hcur, hdc, hsid, hgm, Except.isOk, Except.toBool]
            | ok v' => simp [hc, hm, hcur, hdc, hsid, hgm, Except.isOk, Except.toBool]


end RTChat
